import Mathlib

/-!
Shallow embedding of the WhyAskWhy mysql2sqlite mirroring scripts
(src/mysql2sqlite.py and src/mysql2sqlite_lib.py).

The library functions keep their Python names (verify_sqlite_storage,
sqlite_db_has_tables, and the schema importer, modelled below). The body
of the main script, src/mysql2sqlite.py lines 189 to 398, is modelled as
the function mainRun.

Modelling conventions:
- Database and filesystem side effects are recorded as an explicit event
  trace (inductive Event below).
- Whether each SQL execution succeeds is supplied by oracles in an Env
  record; an uncaught or caught-then-sys.exit(1) failure is modelled as
  an exit code of 1, matching the scripts.
- The on-disk durable state of the destination SQLite file is an FsState:
  whether the file exists plus the list of durably committed table names.
  Opening a connection to a missing file creates an empty file, exactly
  as sqlite3.connect does. The Cursor.executescript call used by the
  schema importer durably commits the statements it runs (the Python
  sqlite3 module documents that executescript issues a COMMIT of any
  pending transaction and runs the script outside the implicit
  transaction); the main script itself depends on this, because its
  second sqlite_db_has_tables probe (line 287) opens a separate
  connection to the same file and observes the freshly imported tables.
  Statements issued through the shared cursor inside the per-table loop
  are pending until the final connection commit, so they do not change
  the FsState in this model.
-/

namespace M2S

/-- One per-table statement bundle, a section of mysql2sqlite_queries.ini
as consumed by the main script: the required read, new and write SQL
strings plus the optional index SQL string (mysql2sqlite.py lines 304,
323, 331-335, 357; mysql2sqlite_lib.py lines 401-416). -/
structure Entry where
  name : String
  read : String
  new : String
  index : Option String
  write : String
deriving DecidableEq

/-- The two boolean policy flags of the general settings consulted by the
modelled code paths (flags section of mysql2sqlite_general.ini). -/
structure Flags where
  fail_on_warnings : Bool
  create_directories : Bool
deriving DecidableEq

/-- Facts about the destination storage directory and file that the
preflight check verify_sqlite_storage inspects, plus whether an attempted
os.makedirs call would succeed. -/
structure StorageState where
  baseDirExists : Bool
  dbFileExists : Bool
  dbFileWritable : Bool
  baseDirWritable : Bool
  mkdirOk : Bool
deriving DecidableEq

/-- Durable on-disk state of the destination SQLite database file:
whether the file exists, and the names of the durably committed tables
it holds. -/
structure FsState where
  fileExists : Bool
  tables : List String
deriving DecidableEq

/-- One statement of the aggregate schema script that the importer
function builds: a create-table statement or an index statement
(mysql2sqlite_lib.py lines 400-413). -/
inductive SchemaStmt
  | create (table : String) (sql : String)
  | idx (table : String) (sql : String)
deriving DecidableEq

/-- Observable side effects of a run, in program order. -/
inductive Event
  | connectSQLite
  | probeConnect
  | probeCount (n : Nat)
  | probeClose
  | importSchema (stmts : List SchemaStmt)
  | warnAutocommit
  | infoAutocommitOff
  | readExec (table : String) (sql : String)
  | dropExec (table : String)
  | newExec (table : String) (sql : String)
  | indexExec (table : String) (sql : String)
  | writeExec (table : String) (sql : String) (row : List String)
  | commitEv
deriving DecidableEq

/-- Oracles supplying the environment of a run: the rows each source
table read yields, and whether each SQL execution succeeds. -/
structure Env where
  rows : String → List (List String)
  readOk : String → Bool
  dropOk : String → Bool
  newOk : String → Bool
  indexOk : String → Bool
  writeOk : String → Nat → Bool
  scriptOk : Bool

/-- Result of a modelled run of the main script: the SQLITE_DB_IS_NEW
flag, the DROP_TABLES flag (none when the process exits before line 287
computes it), the event trace, the final durable file state, and the exit
code (none means the script ran to completion). -/
structure RunOut where
  isNew : Bool
  dropTables : Option Bool
  trace : List Event
  fs : FsState
  exitCode : Option Nat
deriving DecidableEq

/-- Outcome of the storage preflight check: silently proceed, or
terminate the process (every sys.exit call in the source function). -/
inductive VerifyOutcome
  | proceed
  | fatal
deriving DecidableEq

/-- Embeds verify_sqlite_storage, mysql2sqlite_lib.py lines 309-392:
if the base directory does not exist, fail when fail_on_warnings is set,
otherwise attempt directory creation when create_directories is set
(failing on OS error), otherwise fail with the create-it-yourself
message; if the directory exists, check write access to the database
file when it exists, else to the directory itself. -/
def verify_sqlite_storage (flags : Flags) (st : StorageState) : VerifyOutcome :=
  if st.baseDirExists = false then
    if flags.fail_on_warnings then VerifyOutcome.fatal
    else if flags.create_directories then
      (if st.mkdirOk then VerifyOutcome.proceed else VerifyOutcome.fatal)
    else VerifyOutcome.fatal
  else if st.dbFileExists then
    (if st.dbFileWritable then VerifyOutcome.proceed else VerifyOutcome.fatal)
  else if st.baseDirWritable then VerifyOutcome.proceed
  else VerifyOutcome.fatal

/-- Effect of sqlite3.connect on the destination file: a missing file is
created empty (mysql2sqlite.py line 209, mysql2sqlite_lib.py line 435). -/
def connectFs (fs : FsState) : FsState :=
  if fs.fileExists then fs else ⟨true, []⟩

/-- Embeds sqlite_db_has_tables, mysql2sqlite_lib.py lines 432-444: open
a connection to the file (creating it when missing), count the rows of
sqlite_master with type table, and return bool(table_count). The source
function contains no close call, so no probeClose event is emitted. -/
def sqlite_db_has_tables (fs : FsState) : Bool × FsState × List Event :=
  ((connectFs fs).tables.length != 0, connectFs fs,
    [Event.probeConnect, Event.probeCount (connectFs fs).tables.length])

/-- A raw queries-config section: the section name and its key-value
pairs, as configparser hands them to QuerySettings. -/
structure RawSection where
  name : String
  fields : List (String × String)
deriving DecidableEq

/-- Looks a field up in a raw section, as dict access would. -/
def lookupField (fields : List (String × String)) (k : String) : Option String :=
  (fields.find? (fun p => p.1 == k)).map (fun p => p.2)

/-- Embeds QuerySettings loading, mysql2sqlite_lib.py lines 152-196: when
no config file could be read, raise IOError; otherwise store every parsed
section verbatim as a nested dictionary. The source performs no
validation of any field of any section. -/
def QuerySettings_load (processedFiles : Bool) (sections : List RawSection) :
    Except String (List (String × List (String × String))) :=
  if processedFiles then
    Except.ok (sections.map (fun s => (s.name, s.fields)))
  else
    Except.error "Failure to read config files"

/-- The schema statements contributed by one catalog entry: the create
statement, then the index statement when one is defined
(mysql2sqlite_lib.py lines 401-416). -/
def entryStmts (e : Entry) : List SchemaStmt :=
  SchemaStmt.create e.name e.new ::
    (match e.index with
      | some ix => [SchemaStmt.idx e.name ix]
      | none => [])

/-- The aggregate schema script built by import_sqlite_db_schema over the
whole catalog in order (mysql2sqlite_lib.py lines 400-416). -/
def schemaStmts : List Entry → List SchemaStmt
  | [] => []
  | e :: rest => entryStmts e ++ schemaStmts rest

/-- Embeds import_sqlite_db_schema, mysql2sqlite_lib.py lines 395-427:
build the aggregate script and run it through Connection.executescript.
The returned Bool is the success of the executescript call; on success
the imported tables are durably committed to the file (executescript
runs the script outside the pending transaction, which is what lets the
second has-tables probe of the main script observe them); on failure the
script exits with sys.exit(1) and the partial state is left unspecified,
modelled here as the unchanged file state. -/
def import_sqlite_db_schema (env : Env) (entries : List Entry) (fs : FsState) :
    FsState × List Event × Bool :=
  (if env.scriptOk then { fs with tables := fs.tables ++ entries.map Entry.name } else fs,
    [Event.importSchema (schemaStmts entries)], env.scriptOk)

/-- Embeds the autocommit verification of mysql2sqlite.py lines 240-249:
when isolation_level is None (autocommit enabled) the code logs a warning
only when fail_on_warnings is set, and never terminates; when autocommit
is disabled it logs an informational message. -/
def autocommit_check (autocommitEnabled fow : Bool) : List Event :=
  if autocommitEnabled then
    (if fow then [Event.warnAutocommit] else [])
  else [Event.infoAutocommitOff]

/-- Embeds the per-row write loop of mysql2sqlite.py lines 351-363: for
each fetched row in cursor order, execute the write statement bound with
the row values in positional order; a sqlite3.Error on any row is logged
and the process exits with code 1. -/
def writeRows (env : Env) (t sql : String) : List (List String) → Nat → List Event × Option Nat
  | [], _ => ([], none)
  | r :: rs, i =>
    if env.writeOk t i then
      (Event.writeExec t sql r :: (writeRows env t sql rs (i + 1)).1,
        (writeRows env t sql rs (i + 1)).2)
    else ([Event.writeExec t sql r], some 1)

/-- Embeds the drop-and-recreate block of mysql2sqlite.py lines 309-344:
execute DROP TABLE IF EXISTS, then the new statement, then the index
statement when a non-empty index field is defined; the returned Bool is
false when some statement raised sqlite3.Error, in which case the script
logs the error and exits with code 1 right after the attempt. -/
def ddlPhase (env : Env) (e : Entry) : List Event × Bool :=
  if env.dropOk e.name = false then ([Event.dropExec e.name], false)
  else if env.newOk e.name = false then
    ([Event.dropExec e.name, Event.newExec e.name e.new], false)
  else
    match e.index with
    | some ix =>
      ([Event.dropExec e.name, Event.newExec e.name e.new, Event.indexExec e.name ix],
        env.indexOk e.name)
    | none => ([Event.dropExec e.name, Event.newExec e.name e.new], true)

/-- Embeds one iteration of the table loop of mysql2sqlite.py lines
301-367 for entry e: execute the read statement against MySQL (an
uncaught driver error terminates the process), then when DROP_TABLES is
set run the drop-and-recreate block, then fetch all rows and run the
per-row write loop. -/
def mirrorTable (env : Env) (d : Bool) (e : Entry) : List Event × Option Nat :=
  if env.readOk e.name = false then ([Event.readExec e.name e.read], some 1)
  else if d then
    if (ddlPhase env e).2 then
      (Event.readExec e.name e.read ::
          ((ddlPhase env e).1 ++ (writeRows env e.name e.write (env.rows e.name) 0).1),
        (writeRows env e.name e.write (env.rows e.name) 0).2)
    else (Event.readExec e.name e.read :: (ddlPhase env e).1, some 1)
  else
    (Event.readExec e.name e.read :: (writeRows env e.name e.write (env.rows e.name) 0).1,
      (writeRows env e.name e.write (env.rows e.name) 0).2)

/-- Embeds the whole per-table loop of mysql2sqlite.py lines 301-367 over
the catalog in declaration order, stopping at the first table whose
mirroring terminated the process. -/
def tableLoop (env : Env) (d : Bool) : List Entry → List Event × Option Nat
  | [] => ([], none)
  | e :: rest =>
    match (mirrorTable env d e).2 with
    | some c => ((mirrorTable env d e).1, some c)
    | none =>
      ((mirrorTable env d e).1 ++ (tableLoop env d rest).1, (tableLoop env d rest).2)

/-- Embeds mysql2sqlite.py lines 240-398 given the events accumulated so
far and the durable file state after the optional schema import: the
autocommit check, the DROP_TABLES recompute through a fresh
sqlite_db_has_tables probe (line 287), the per-table loop, and on full
success the single sqlite_connection.commit call (line 383). -/
def runTail (isNew : Bool) (pre : List Event) (fs : FsState) (flags : Flags)
    (ac : Bool) (env : Env) (entries : List Entry) : RunOut :=
  ⟨isNew, some (sqlite_db_has_tables fs).1,
    pre ++ autocommit_check ac flags.fail_on_warnings ++ (sqlite_db_has_tables fs).2.2 ++
      (tableLoop env (sqlite_db_has_tables fs).1 entries).1 ++
      (if (tableLoop env (sqlite_db_has_tables fs).1 entries).2 = none
        then [Event.commitEv] else []),
    (sqlite_db_has_tables fs).2.1,
    (tableLoop env (sqlite_db_has_tables fs).1 entries).2⟩

/-- Embeds the body of the main script, mysql2sqlite.py lines 189-398:
compute SQLITE_DB_IS_NEW from file existence before anything touches the
path; when new, run the storage preflight (exiting on failure); connect
to the destination (creating a missing file); probe for tables; when the
database is new or table-less run the schema importer (exiting on
failure); then continue with the autocommit check, the DROP_TABLES
recompute, the table loop and the final commit. -/
def mainRun (flags : Flags) (st : StorageState) (ac : Bool) (env : Env)
    (entries : List Entry) (fs0 : FsState) : RunOut :=
  if fs0.fileExists = false ∧ verify_sqlite_storage flags st = VerifyOutcome.fatal then
    ⟨!fs0.fileExists, none, [], fs0, some 1⟩
  else if fs0.fileExists = false ∨ (sqlite_db_has_tables (connectFs fs0)).1 = false then
    if (import_sqlite_db_schema env entries (sqlite_db_has_tables (connectFs fs0)).2.1).2.2
    then
      runTail (!fs0.fileExists)
        (Event.connectSQLite :: (sqlite_db_has_tables (connectFs fs0)).2.2 ++
          (import_sqlite_db_schema env entries (sqlite_db_has_tables (connectFs fs0)).2.1).2.1)
        (import_sqlite_db_schema env entries (sqlite_db_has_tables (connectFs fs0)).2.1).1
        flags ac env entries
    else
      ⟨!fs0.fileExists, none,
        Event.connectSQLite :: (sqlite_db_has_tables (connectFs fs0)).2.2 ++
          (import_sqlite_db_schema env entries (sqlite_db_has_tables (connectFs fs0)).2.1).2.1,
        (import_sqlite_db_schema env entries (sqlite_db_has_tables (connectFs fs0)).2.1).1,
        some 1⟩
  else
    runTail (!fs0.fileExists)
      (Event.connectSQLite :: (sqlite_db_has_tables (connectFs fs0)).2.2)
      (sqlite_db_has_tables (connectFs fs0)).2.1 flags ac env entries

/-- Classifies the events a run can record as coming from the per-table
loop: source reads, destination DDL and per-row writes. -/
def isTableEv : Event → Bool
  | Event.readExec _ _ => true
  | Event.dropExec _ => true
  | Event.newExec _ _ => true
  | Event.indexExec _ _ => true
  | Event.writeExec _ _ _ => true
  | _ => false

/-- Recognizes schema-import events. -/
def isImportEv : Event → Bool
  | Event.importSchema _ => true
  | _ => false

/-- Recognizes per-row write events. -/
def isWriteEv : Event → Bool
  | Event.writeExec _ _ _ => true
  | _ => false

/-- Concrete catalog entry without an index statement, used by witnesses. -/
def entryUsers : Entry :=
  ⟨"users", "SELECT id,name FROM users", "CREATE TABLE users (id INT, name TEXT)", none,
    "INSERT INTO users VALUES (?,?)"⟩

/-- Concrete catalog entry with an index statement, used by witnesses. -/
def entryAliases : Entry :=
  ⟨"aliases", "SELECT src,dst FROM aliases", "CREATE TABLE aliases (src TEXT, dst TEXT)",
    some "CREATE INDEX aliases_src ON aliases (src)", "INSERT INTO aliases VALUES (?,?)"⟩

/-- Concrete environment in which every statement execution succeeds. -/
def envAllOk : Env :=
  ⟨fun t => if t = "users" then [["1", "Alice"], ["2", "Bob"]] else [],
    fun _ => true, fun _ => true, fun _ => true, fun _ => true, fun _ _ => true, true⟩

/-- Concrete environment in which every row write fails. -/
def envWriteFail : Env :=
  ⟨fun t => if t = "users" then [["1", "Alice"], ["2", "Bob"]] else [],
    fun _ => true, fun _ => true, fun _ => true, fun _ => true, fun _ _ => false, true⟩

/-- Concrete storage state that passes the preflight check. -/
def stOk : StorageState := ⟨true, false, true, true, true⟩

/-- Concrete flags with both policy options disabled. -/
def flagsQuiet : Flags := ⟨false, false⟩

theorem writeRows_mem (env : Env) (t sql : String) :
    ∀ rs i ev, ev ∈ (writeRows env t sql rs i).1 → ∃ r, ev = Event.writeExec t sql r := by
  intro rs
  induction rs with
  | nil => intro i ev hev; simp [writeRows] at hev
  | cons r rest ih =>
    intro i ev hev
    unfold writeRows at hev
    split at hev
    · rcases List.mem_cons.mp hev with rfl | hev
      · exact ⟨r, rfl⟩
      · exact ih (i + 1) ev hev
    · rcases List.mem_singleton.mp hev with rfl
      exact ⟨r, rfl⟩

theorem writeRows_none_mem (env : Env) (t sql : String) :
    ∀ rs i, (writeRows env t sql rs i).2 = none →
      ∀ r ∈ rs, Event.writeExec t sql r ∈ (writeRows env t sql rs i).1 := by
  intro rs
  induction rs with
  | nil => intro i _ r hr; simp at hr
  | cons r0 rest ih =>
    intro i hnone r hr
    unfold writeRows at hnone ⊢
    split at hnone
    · rcases List.mem_cons.mp hr with rfl | hr
      · next h => simp [h]
      · next h => simp only [h, if_true]; exact List.mem_cons_of_mem _ (ih (i + 1) hnone r hr)
    · simp at hnone

theorem writeRows_allOk (env : Env) (t sql : String) (h : ∀ i, env.writeOk t i = true) :
    ∀ rs i, writeRows env t sql rs i = (rs.map (Event.writeExec t sql), none) := by
  intro rs
  induction rs with
  | nil => intro i; rfl
  | cons r rest ih =>
    intro i
    unfold writeRows
    simp [h i, ih (i + 1)]

theorem ddlPhase_eq_dropFail (env : Env) (e : Entry) (h : env.dropOk e.name = false) :
    ddlPhase env e = ([Event.dropExec e.name], false) := by
  simp [ddlPhase, h]

theorem ddlPhase_eq_newFail (env : Env) (e : Entry) (hd : env.dropOk e.name = true)
    (hn : env.newOk e.name = false) :
    ddlPhase env e = ([Event.dropExec e.name, Event.newExec e.name e.new], false) := by
  simp [ddlPhase, hd, hn]

theorem ddlPhase_eq_idx (env : Env) (e : Entry) (ix : String)
    (hd : env.dropOk e.name = true) (hn : env.newOk e.name = true)
    (hix : e.index = some ix) :
    ddlPhase env e =
      ([Event.dropExec e.name, Event.newExec e.name e.new, Event.indexExec e.name ix],
        env.indexOk e.name) := by
  simp [ddlPhase, hd, hn, hix]

theorem ddlPhase_eq_noIdx (env : Env) (e : Entry) (hd : env.dropOk e.name = true)
    (hn : env.newOk e.name = true) (hix : e.index = none) :
    ddlPhase env e = ([Event.dropExec e.name, Event.newExec e.name e.new], true) := by
  simp [ddlPhase, hd, hn, hix]

theorem ddlPhase_mem (env : Env) (e : Entry) :
    ∀ ev ∈ (ddlPhase env e).1,
      ev = Event.dropExec e.name ∨ ev = Event.newExec e.name e.new ∨
        ∃ ix, e.index = some ix ∧ ev = Event.indexExec e.name ix := by
  intro ev hev
  cases hd : env.dropOk e.name with
  | false =>
    rw [ddlPhase_eq_dropFail env e hd] at hev
    simp at hev
    exact Or.inl hev
  | true =>
    cases hn : env.newOk e.name with
    | false =>
      rw [ddlPhase_eq_newFail env e hd hn] at hev
      simp at hev
      rcases hev with rfl | rfl
      · exact Or.inl rfl
      · exact Or.inr (Or.inl rfl)
    | true =>
      cases hix : e.index with
      | some ix =>
        rw [ddlPhase_eq_idx env e ix hd hn hix] at hev
        simp at hev
        rcases hev with rfl | rfl | rfl
        · exact Or.inl rfl
        · exact Or.inr (Or.inl rfl)
        · exact Or.inr (Or.inr ⟨ix, rfl, rfl⟩)
      | none =>
        rw [ddlPhase_eq_noIdx env e hd hn hix] at hev
        simp at hev
        rcases hev with rfl | rfl
        · exact Or.inl rfl
        · exact Or.inr (Or.inl rfl)

theorem ddlPhase_drop_mem (env : Env) (e : Entry) :
    Event.dropExec e.name ∈ (ddlPhase env e).1 := by
  cases hd : env.dropOk e.name with
  | false => rw [ddlPhase_eq_dropFail env e hd]; simp
  | true =>
    cases hn : env.newOk e.name with
    | false => rw [ddlPhase_eq_newFail env e hd hn]; simp
    | true =>
      cases hix : e.index with
      | some ix => rw [ddlPhase_eq_idx env e ix hd hn hix]; simp
      | none => rw [ddlPhase_eq_noIdx env e hd hn hix]; simp

theorem ddlPhase_new_mem (env : Env) (e : Entry) (h : (ddlPhase env e).2 = true) :
    Event.newExec e.name e.new ∈ (ddlPhase env e).1 := by
  cases hd : env.dropOk e.name with
  | false => rw [ddlPhase_eq_dropFail env e hd] at h; simp at h
  | true =>
    cases hn : env.newOk e.name with
    | false => rw [ddlPhase_eq_newFail env e hd hn] at h; simp at h
    | true =>
      cases hix : e.index with
      | some ix => rw [ddlPhase_eq_idx env e ix hd hn hix]; simp
      | none => rw [ddlPhase_eq_noIdx env e hd hn hix]; simp

theorem ddlPhase_allOk (env : Env) (e : Entry) (hd : env.dropOk e.name = true)
    (hn : env.newOk e.name = true) (hi : env.indexOk e.name = true) :
    ddlPhase env e =
      (Event.dropExec e.name :: Event.newExec e.name e.new ::
        (match e.index with
          | some ix => [Event.indexExec e.name ix]
          | none => []), true) := by
  cases hix : e.index with
  | some ix => rw [ddlPhase_eq_idx env e ix hd hn hix, hi]
  | none => rw [ddlPhase_eq_noIdx env e hd hn hix]

theorem mirrorTable_eq_readFail (env : Env) (d : Bool) (e : Entry)
    (h : env.readOk e.name = false) :
    mirrorTable env d e = ([Event.readExec e.name e.read], some 1) := by
  simp [mirrorTable, h]

theorem mirrorTable_eq_noDrop (env : Env) (e : Entry) (h : env.readOk e.name = true) :
    mirrorTable env false e =
      (Event.readExec e.name e.read :: (writeRows env e.name e.write (env.rows e.name) 0).1,
        (writeRows env e.name e.write (env.rows e.name) 0).2) := by
  simp [mirrorTable, h]

theorem mirrorTable_eq_ddlOk (env : Env) (e : Entry) (h : env.readOk e.name = true)
    (hddl : (ddlPhase env e).2 = true) :
    mirrorTable env true e =
      (Event.readExec e.name e.read ::
          ((ddlPhase env e).1 ++ (writeRows env e.name e.write (env.rows e.name) 0).1),
        (writeRows env e.name e.write (env.rows e.name) 0).2) := by
  simp [mirrorTable, h, hddl]

theorem mirrorTable_eq_ddlFail (env : Env) (e : Entry) (h : env.readOk e.name = true)
    (hddl : (ddlPhase env e).2 = false) :
    mirrorTable env true e = (Event.readExec e.name e.read :: (ddlPhase env e).1, some 1) := by
  simp [mirrorTable, h, hddl]

theorem mirrorTable_class (env : Env) (d : Bool) (e : Entry) :
    ∀ ev ∈ (mirrorTable env d e).1,
      ev = Event.readExec e.name e.read ∨ ev = Event.dropExec e.name ∨
        ev = Event.newExec e.name e.new ∨
        (∃ ix, e.index = some ix ∧ ev = Event.indexExec e.name ix) ∨
        (∃ r, ev = Event.writeExec e.name e.write r) := by
  intro ev hev
  cases hro : env.readOk e.name with
  | false =>
    rw [mirrorTable_eq_readFail env d e hro] at hev
    simp at hev
    exact Or.inl hev
  | true =>
    cases d with
    | false =>
      rw [mirrorTable_eq_noDrop env e hro] at hev
      rcases List.mem_cons.mp hev with rfl | hev
      · exact Or.inl rfl
      · obtain ⟨r, rfl⟩ := writeRows_mem env e.name e.write _ 0 ev hev
        exact Or.inr (Or.inr (Or.inr (Or.inr ⟨r, rfl⟩)))
    | true =>
      cases hddl : (ddlPhase env e).2 with
      | true =>
        rw [mirrorTable_eq_ddlOk env e hro hddl] at hev
        rcases List.mem_cons.mp hev with rfl | hev
        · exact Or.inl rfl
        · rcases List.mem_append.mp hev with hev | hev
          · rcases ddlPhase_mem env e ev hev with h | h | h
            · exact Or.inr (Or.inl h)
            · exact Or.inr (Or.inr (Or.inl h))
            · exact Or.inr (Or.inr (Or.inr (Or.inl h)))
          · obtain ⟨r, rfl⟩ := writeRows_mem env e.name e.write _ 0 ev hev
            exact Or.inr (Or.inr (Or.inr (Or.inr ⟨r, rfl⟩)))
      | false =>
        rw [mirrorTable_eq_ddlFail env e hro hddl] at hev
        rcases List.mem_cons.mp hev with rfl | hev
        · exact Or.inl rfl
        · rcases ddlPhase_mem env e ev hev with h | h | h
          · exact Or.inr (Or.inl h)
          · exact Or.inr (Or.inr (Or.inl h))
          · exact Or.inr (Or.inr (Or.inr (Or.inl h)))

theorem mirrorTable_table_ev (env : Env) (d : Bool) (e : Entry) :
    ∀ ev ∈ (mirrorTable env d e).1, isTableEv ev = true := by
  intro ev hev
  rcases mirrorTable_class env d e ev hev with rfl | rfl | rfl | ⟨ix, _, rfl⟩ | ⟨r, rfl⟩ <;> rfl

theorem mirrorTable_read_mem (env : Env) (d : Bool) (e : Entry) :
    Event.readExec e.name e.read ∈ (mirrorTable env d e).1 := by
  cases hro : env.readOk e.name with
  | false => rw [mirrorTable_eq_readFail env d e hro]; simp
  | true =>
    cases d with
    | false => rw [mirrorTable_eq_noDrop env e hro]; simp
    | true =>
      cases hddl : (ddlPhase env e).2 with
      | true => rw [mirrorTable_eq_ddlOk env e hro hddl]; simp
      | false => rw [mirrorTable_eq_ddlFail env e hro hddl]; simp

theorem mirrorTable_none (env : Env) (d : Bool) (e : Entry)
    (h : (mirrorTable env d e).2 = none) :
    ∀ r ∈ env.rows e.name, Event.writeExec e.name e.write r ∈ (mirrorTable env d e).1 := by
  intro r hr
  cases hro : env.readOk e.name with
  | false =>
    rw [mirrorTable_eq_readFail env d e hro] at h
    simp at h
  | true =>
    cases d with
    | false =>
      rw [mirrorTable_eq_noDrop env e hro] at h ⊢
      exact List.mem_cons_of_mem _ (writeRows_none_mem env e.name e.write _ 0 h r hr)
    | true =>
      cases hddl : (ddlPhase env e).2 with
      | false =>
        rw [mirrorTable_eq_ddlFail env e hro hddl] at h
        simp at h
      | true =>
        rw [mirrorTable_eq_ddlOk env e hro hddl] at h ⊢
        exact List.mem_cons_of_mem _
          (List.mem_append_right _ (writeRows_none_mem env e.name e.write _ 0 h r hr))

theorem mirrorTable_write_drop (env : Env) (e : Entry) :
    ∀ t s r, Event.writeExec t s r ∈ (mirrorTable env true e).1 →
      Event.dropExec t ∈ (mirrorTable env true e).1 ∧
        ∃ s2, Event.newExec t s2 ∈ (mirrorTable env true e).1 := by
  intro t s r hev
  have hname : t = e.name := by
    rcases mirrorTable_class env true e _ hev with h | h | h | ⟨ix, _, h⟩ | ⟨r2, h⟩
    · simp at h
    · simp at h
    · simp at h
    · simp at h
    · simp only [Event.writeExec.injEq] at h
      exact h.1
  subst hname
  cases hro : env.readOk e.name with
  | false =>
    rw [mirrorTable_eq_readFail env true e hro] at hev
    simp at hev
  | true =>
    cases hddl : (ddlPhase env e).2 with
    | true =>
      rw [mirrorTable_eq_ddlOk env e hro hddl] at hev ⊢
      exact ⟨List.mem_cons_of_mem _ (List.mem_append_left _ (ddlPhase_drop_mem env e)),
        e.new, List.mem_cons_of_mem _ (List.mem_append_left _ (ddlPhase_new_mem env e hddl))⟩
    | false =>
      rw [mirrorTable_eq_ddlFail env e hro hddl] at hev
      rcases List.mem_cons.mp hev with h | hev
      · simp at h
      · rcases ddlPhase_mem env e _ hev with h | h | ⟨ix, _, h⟩ <;> simp at h

theorem mirrorTable_no_ddl (env : Env) (e : Entry) :
    ∀ ev ∈ (mirrorTable env false e).1,
      ev = Event.readExec e.name e.read ∨ ∃ r, ev = Event.writeExec e.name e.write r := by
  intro ev hev
  cases hro : env.readOk e.name with
  | false =>
    rw [mirrorTable_eq_readFail env false e hro] at hev
    simp at hev
    exact Or.inl hev
  | true =>
    rw [mirrorTable_eq_noDrop env e hro] at hev
    rcases List.mem_cons.mp hev with rfl | hev
    · exact Or.inl rfl
    · obtain ⟨r, rfl⟩ := writeRows_mem env e.name e.write _ 0 ev hev
      exact Or.inr ⟨r, rfl⟩

theorem connectFs_fileExists (fs : FsState) : (connectFs fs).fileExists = true := by
  unfold connectFs
  split
  · next h => exact h
  · rfl

theorem connectFs_of_fileExists (fs : FsState) (h : fs.fileExists = true) :
    connectFs fs = fs := by
  simp [connectFs, h]

theorem connectFs_idem (fs : FsState) : connectFs (connectFs fs) = connectFs fs :=
  connectFs_of_fileExists _ (connectFs_fileExists fs)

theorem autocommit_check_mem (a f : Bool) :
    ∀ ev ∈ autocommit_check a f,
      ev = Event.warnAutocommit ∨ ev = Event.infoAutocommitOff := by
  cases a <;> cases f <;> simp [autocommit_check]

theorem tableEv_not_import (ev : Event) (h : isTableEv ev = true) : isImportEv ev = false := by
  cases ev <;> simp [isTableEv, isImportEv] at h ⊢

theorem tableLoop_cons_fail (env : Env) (d : Bool) (e : Entry) (rest : List Entry) (c : Nat)
    (h : (mirrorTable env d e).2 = some c) :
    tableLoop env d (e :: rest) = ((mirrorTable env d e).1, some c) := by
  simp [tableLoop, h]

theorem tableLoop_cons_ok (env : Env) (d : Bool) (e : Entry) (rest : List Entry)
    (h : (mirrorTable env d e).2 = none) :
    tableLoop env d (e :: rest) =
      ((mirrorTable env d e).1 ++ (tableLoop env d rest).1, (tableLoop env d rest).2) := by
  simp [tableLoop, h]

theorem tableLoop_origin (env : Env) (d : Bool) :
    ∀ es, ∀ ev ∈ (tableLoop env d es).1,
      ∃ e, e ∈ es ∧ ev ∈ (mirrorTable env d e).1 ∧
        ∀ ev2 ∈ (mirrorTable env d e).1, ev2 ∈ (tableLoop env d es).1 := by
  intro es
  induction es with
  | nil => intro ev hev; simp [tableLoop] at hev
  | cons e rest ih =>
    intro ev hev
    cases hme : (mirrorTable env d e).2 with
    | some c =>
      rw [tableLoop_cons_fail env d e rest c hme] at hev ⊢
      exact ⟨e, List.mem_cons_self e rest, hev, fun ev2 h2 => h2⟩
    | none =>
      rw [tableLoop_cons_ok env d e rest hme] at hev ⊢
      rcases List.mem_append.mp hev with hev | hev
      · exact ⟨e, List.mem_cons_self e rest, hev, fun ev2 h2 => List.mem_append_left _ h2⟩
      · obtain ⟨e2, he2, hev2, hsub⟩ := ih ev hev
        exact ⟨e2, List.mem_cons_of_mem e he2, hev2,
          fun ev2 h2 => List.mem_append_right _ (hsub ev2 h2)⟩

theorem tableLoop_none (env : Env) (d : Bool) :
    ∀ es, (tableLoop env d es).2 = none →
      ∀ e ∈ es, (mirrorTable env d e).2 = none ∧
        ∀ ev ∈ (mirrorTable env d e).1, ev ∈ (tableLoop env d es).1 := by
  intro es
  induction es with
  | nil => intro _ e he; simp at he
  | cons e0 rest ih =>
    intro hnone e he
    cases hme : (mirrorTable env d e0).2 with
    | some c =>
      rw [tableLoop_cons_fail env d e0 rest c hme] at hnone
      simp at hnone
    | none =>
      rw [tableLoop_cons_ok env d e0 rest hme] at hnone ⊢
      rcases List.mem_cons.mp he with rfl | he
      · exact ⟨hme, fun ev h2 => List.mem_append_left _ h2⟩
      · obtain ⟨h1, h2⟩ := ih hnone e he
        exact ⟨h1, fun ev hv => List.mem_append_right _ (h2 ev hv)⟩

theorem tableLoop_table_ev (env : Env) (d : Bool) (es : List Entry) :
    ∀ ev ∈ (tableLoop env d es).1, isTableEv ev = true := by
  intro ev hev
  obtain ⟨e, _, hev2, _⟩ := tableLoop_origin env d es ev hev
  exact mirrorTable_table_ev env d e ev hev2

theorem tableLoop_write_drop (env : Env) (es : List Entry) :
    ∀ t s r, Event.writeExec t s r ∈ (tableLoop env true es).1 →
      Event.dropExec t ∈ (tableLoop env true es).1 ∧
        ∃ s2, Event.newExec t s2 ∈ (tableLoop env true es).1 := by
  intro t s r hev
  obtain ⟨e, _, hev2, hsub⟩ := tableLoop_origin env true es _ hev
  obtain ⟨hdrop, s2, hnew⟩ := mirrorTable_write_drop env e t s r hev2
  exact ⟨hsub _ hdrop, s2, hsub _ hnew⟩

theorem tableLoop_index_origin (env : Env) (d : Bool) (es : List Entry) :
    ∀ t s, Event.indexExec t s ∈ (tableLoop env d es).1 →
      ∃ e, e ∈ es ∧ e.name = t ∧ e.index = some s := by
  intro t s hev
  obtain ⟨e, he, hev2, _⟩ := tableLoop_origin env d es _ hev
  rcases mirrorTable_class env d e _ hev2 with h | h | h | ⟨ix, hix, h⟩ | ⟨r, h⟩
  · simp at h
  · simp at h
  · simp at h
  · simp only [Event.indexExec.injEq] at h
    exact ⟨e, he, h.1.symm, by rw [hix, h.2]⟩
  · simp at h

theorem schemaStmts_idx_origin :
    ∀ (es : List Entry) (t s : String), SchemaStmt.idx t s ∈ schemaStmts es →
      ∃ e, e ∈ es ∧ e.name = t ∧ e.index = some s := by
  intro es
  induction es with
  | nil => intro t s h; simp [schemaStmts] at h
  | cons e rest ih =>
    intro t s h
    simp only [schemaStmts] at h
    rcases List.mem_append.mp h with h | h
    · simp only [entryStmts] at h
      rcases List.mem_cons.mp h with h | h
      · simp at h
      · cases hix : e.index with
        | some ix =>
          simp only [hix] at h
          simp only [List.mem_singleton, SchemaStmt.idx.injEq] at h
          exact ⟨e, List.mem_cons_self e rest, h.1.symm, by rw [hix, h.2]⟩
        | none =>
          simp only [hix] at h
          simp at h
    · obtain ⟨e2, he2, h1, h2⟩ := ih t s h
      exact ⟨e2, List.mem_cons_of_mem e he2, h1, h2⟩

theorem entry_name_inj :
    ∀ es : List Entry, (es.map Entry.name).Nodup →
      ∀ a ∈ es, ∀ b ∈ es, a.name = b.name → a = b := by
  intro es
  induction es with
  | nil => intro _ a ha; simp at ha
  | cons e rest ih =>
    intro hnd a ha b hb hab
    simp only [List.map_cons, List.nodup_cons] at hnd
    rcases List.mem_cons.mp ha with ha1 | ha1
    · rcases List.mem_cons.mp hb with hb1 | hb1
      · rw [ha1, hb1]
      · exfalso
        apply hnd.1
        rw [← ha1, hab]
        exact List.mem_map_of_mem Entry.name hb1
    · rcases List.mem_cons.mp hb with hb1 | hb1
      · exfalso
        apply hnd.1
        rw [← hb1, ← hab]
        exact List.mem_map_of_mem Entry.name ha1
      · exact ih hnd.2 a ha1 b hb1 hab

theorem runTail_trace_decomp (isNew : Bool) (pre : List Event) (fs : FsState) (flags : Flags)
    (ac : Bool) (env : Env) (entries : List Entry) :
    ∃ mid rest,
      (runTail isNew pre fs flags ac env entries).trace =
        pre ++ mid ++ (tableLoop env (sqlite_db_has_tables fs).1 entries).1 ++ rest ∧
      (∀ ev ∈ mid, ev = Event.warnAutocommit ∨ ev = Event.infoAutocommitOff ∨
        ev = Event.probeConnect ∨ ∃ n, ev = Event.probeCount n) ∧
      ∀ ev ∈ rest, ev = Event.commitEv := by
  refine ⟨autocommit_check ac flags.fail_on_warnings ++ (sqlite_db_has_tables fs).2.2,
    (if (tableLoop env (sqlite_db_has_tables fs).1 entries).2 = none
      then [Event.commitEv] else []), ?_, ?_, ?_⟩
  · simp [runTail, List.append_assoc]
  · intro ev hev
    rcases List.mem_append.mp hev with hev | hev
    · rcases autocommit_check_mem ac flags.fail_on_warnings ev hev with h | h
      · exact Or.inl h
      · exact Or.inr (Or.inl h)
    · simp only [sqlite_db_has_tables] at hev
      rcases List.mem_cons.mp hev with rfl | hev
      · exact Or.inr (Or.inr (Or.inl rfl))
      · rcases List.mem_singleton.mp hev with rfl
        exact Or.inr (Or.inr (Or.inr ⟨_, rfl⟩))
  · intro ev hev
    split at hev
    · rcases List.mem_singleton.mp hev with rfl
      rfl
    · simp at hev

theorem runTail_commit (isNew : Bool) (pre : List Event) (fs : FsState) (flags : Flags)
    (ac : Bool) (env : Env) (entries : List Entry)
    (hpre : Event.commitEv ∉ pre) :
    ((runTail isNew pre fs flags ac env entries).exitCode = none →
      ∃ t, (runTail isNew pre fs flags ac env entries).trace = t ++ [Event.commitEv] ∧
        Event.commitEv ∉ t ∧
        ∀ e ∈ entries, Event.readExec e.name e.read ∈ t ∧
          ∀ r ∈ env.rows e.name, Event.writeExec e.name e.write r ∈ t) ∧
    ((runTail isNew pre fs flags ac env entries).exitCode ≠ none →
      Event.commitEv ∉ (runTail isNew pre fs flags ac env entries).trace) := by
  have hac : ∀ ev ∈ autocommit_check ac flags.fail_on_warnings, ev ≠ Event.commitEv := by
    intro ev hev
    rcases autocommit_check_mem ac flags.fail_on_warnings ev hev with rfl | rfl <;> simp
  have hprobe : Event.commitEv ∉ (sqlite_db_has_tables fs).2.2 := by
    simp [sqlite_db_has_tables]
  have hloop : Event.commitEv ∉ (tableLoop env (sqlite_db_has_tables fs).1 entries).1 := by
    intro h
    have := tableLoop_table_ev env (sqlite_db_has_tables fs).1 entries _ h
    simp [isTableEv] at this
  have ht0 : Event.commitEv ∉
      pre ++ autocommit_check ac flags.fail_on_warnings ++ (sqlite_db_has_tables fs).2.2 ++
        (tableLoop env (sqlite_db_has_tables fs).1 entries).1 := by
    intro h
    rcases List.mem_append.mp h with h | h
    · rcases List.mem_append.mp h with h | h
      · rcases List.mem_append.mp h with h | h
        · exact hpre h
        · exact hac _ h rfl
      · exact hprobe h
    · exact hloop h
  constructor
  · intro hnone
    have hl : (tableLoop env (sqlite_db_has_tables fs).1 entries).2 = none := hnone
    refine ⟨pre ++ autocommit_check ac flags.fail_on_warnings ++
        (sqlite_db_has_tables fs).2.2 ++
        (tableLoop env (sqlite_db_has_tables fs).1 entries).1, ?_, ht0, ?_⟩
    · show pre ++ autocommit_check ac flags.fail_on_warnings ++ (sqlite_db_has_tables fs).2.2 ++
          (tableLoop env (sqlite_db_has_tables fs).1 entries).1 ++
          (if (tableLoop env (sqlite_db_has_tables fs).1 entries).2 = none
            then [Event.commitEv] else []) = _
      rw [if_pos hl]
    · intro e he
      obtain ⟨hme, hsub⟩ := tableLoop_none env (sqlite_db_has_tables fs).1 entries hl e he
      constructor
      · exact List.mem_append_right _ (hsub _ (mirrorTable_read_mem env _ e))
      · intro r hr
        exact List.mem_append_right _ (hsub _ (mirrorTable_none env _ e hme r hr))
  · intro hne h
    have hl : ¬ (tableLoop env (sqlite_db_has_tables fs).1 entries).2 = none := hne
    have h2 : Event.commitEv ∈
        (pre ++ autocommit_check ac flags.fail_on_warnings ++ (sqlite_db_has_tables fs).2.2 ++
          (tableLoop env (sqlite_db_has_tables fs).1 entries).1) ++
          (if (tableLoop env (sqlite_db_has_tables fs).1 entries).2 = none
            then [Event.commitEv] else []) := h
    rcases List.mem_append.mp h2 with h3 | h3
    · exact ht0 h3
    · rw [if_neg hl] at h3
      simp at h3

theorem runTail_import_free (isNew : Bool) (pre : List Event) (fs : FsState) (flags : Flags)
    (ac : Bool) (env : Env) (entries : List Entry) :
    ∀ stmts, Event.importSchema stmts ∈ (runTail isNew pre fs flags ac env entries).trace →
      Event.importSchema stmts ∈ pre := by
  intro stmts h
  obtain ⟨mid, rest, htr, hmid, hrest⟩ := runTail_trace_decomp isNew pre fs flags ac env entries
  rw [htr] at h
  rcases List.mem_append.mp h with h | h
  · rcases List.mem_append.mp h with h | h
    · rcases List.mem_append.mp h with h | h
      · exact h
      · rcases hmid _ h with h2 | h2 | h2 | ⟨n, h2⟩ <;> simp at h2
    · have := tableLoop_table_ev env _ entries _ h
      simp [isTableEv] at this
  · have := hrest _ h
    simp at this

theorem runTail_index_origin (isNew : Bool) (pre : List Event) (fs : FsState) (flags : Flags)
    (ac : Bool) (env : Env) (entries : List Entry) :
    ∀ t s, Event.indexExec t s ∈ (runTail isNew pre fs flags ac env entries).trace →
      Event.indexExec t s ∈ pre ∨ ∃ e, e ∈ entries ∧ e.name = t ∧ e.index = some s := by
  intro t s h
  obtain ⟨mid, rest, htr, hmid, hrest⟩ := runTail_trace_decomp isNew pre fs flags ac env entries
  rw [htr] at h
  rcases List.mem_append.mp h with h | h
  · rcases List.mem_append.mp h with h | h
    · rcases List.mem_append.mp h with h | h
      · exact Or.inl h
      · rcases hmid _ h with h2 | h2 | h2 | ⟨n, h2⟩ <;> simp at h2
    · exact Or.inr (tableLoop_index_origin env _ entries t s h)
  · have := hrest _ h
    simp at this

theorem runTail_write_origin (isNew : Bool) (pre : List Event) (fs : FsState) (flags : Flags)
    (ac : Bool) (env : Env) (entries : List Entry)
    (hd : (sqlite_db_has_tables fs).1 = true) :
    ∀ t s r, Event.writeExec t s r ∈ (runTail isNew pre fs flags ac env entries).trace →
      Event.writeExec t s r ∈ pre ∨
        (Event.dropExec t ∈ (runTail isNew pre fs flags ac env entries).trace ∧
          ∃ s2, Event.newExec t s2 ∈ (runTail isNew pre fs flags ac env entries).trace) := by
  intro t s r h
  obtain ⟨mid, rest, htr, hmid, hrest⟩ := runTail_trace_decomp isNew pre fs flags ac env entries
  rw [htr] at h
  rcases List.mem_append.mp h with h | h
  · rcases List.mem_append.mp h with h | h
    · rcases List.mem_append.mp h with h | h
      · exact Or.inl h
      · rcases hmid _ h with h2 | h2 | h2 | ⟨n, h2⟩ <;> simp at h2
    · rw [hd] at h
      obtain ⟨hdrop, s2, hnew⟩ := tableLoop_write_drop env entries t s r h
      refine Or.inr ⟨?_, s2, ?_⟩
      · rw [htr]
        refine List.mem_append.mpr (Or.inl (List.mem_append.mpr (Or.inr ?_)))
        rw [hd]
        exact hdrop
      · rw [htr]
        refine List.mem_append.mpr (Or.inl (List.mem_append.mpr (Or.inr ?_)))
        rw [hd]
        exact hnew
  · have := hrest _ h
    simp at this

theorem mainRun_import_stmts (flags : Flags) (st : StorageState) (ac : Bool) (env : Env)
    (entries : List Entry) (fs0 : FsState) :
    ∀ stmts, Event.importSchema stmts ∈ (mainRun flags st ac env entries fs0).trace →
      stmts = schemaStmts entries := by
  intro stmts h
  unfold mainRun at h
  split at h
  · simp at h
  · split at h
    · split at h
      · have h2 := runTail_import_free _ _ _ _ _ _ _ _ h
        rcases List.mem_cons.mp h2 with h3 | h3
        · simp at h3
        · rcases List.mem_append.mp h3 with h4 | h4
          · simp [sqlite_db_has_tables] at h4
          · simp [import_sqlite_db_schema] at h4
            exact h4
      · rcases List.mem_cons.mp h with h3 | h3
        · simp at h3
        · rcases List.mem_append.mp h3 with h4 | h4
          · simp [sqlite_db_has_tables] at h4
          · simp [import_sqlite_db_schema] at h4
            exact h4
    · have h2 := runTail_import_free _ _ _ _ _ _ _ _ h
      rcases List.mem_cons.mp h2 with h3 | h3
      · simp at h3
      · simp [sqlite_db_has_tables] at h3

theorem mainRun_index_origin (flags : Flags) (st : StorageState) (ac : Bool) (env : Env)
    (entries : List Entry) (fs0 : FsState) :
    ∀ t s, Event.indexExec t s ∈ (mainRun flags st ac env entries fs0).trace →
      ∃ e, e ∈ entries ∧ e.name = t ∧ e.index = some s := by
  intro t s h
  unfold mainRun at h
  split at h
  · simp at h
  · split at h
    · split at h
      · rcases runTail_index_origin _ _ _ _ _ _ _ t s h with h2 | h2
        · rcases List.mem_cons.mp h2 with h3 | h3
          · simp at h3
          · rcases List.mem_append.mp h3 with h4 | h4
            · simp [sqlite_db_has_tables] at h4
            · simp [import_sqlite_db_schema] at h4
        · exact h2
      · rcases List.mem_cons.mp h with h3 | h3
        · simp at h3
        · rcases List.mem_append.mp h3 with h4 | h4
          · simp [sqlite_db_has_tables] at h4
          · simp [import_sqlite_db_schema] at h4
    · rcases runTail_index_origin _ _ _ _ _ _ _ t s h with h2 | h2
      · rcases List.mem_cons.mp h2 with h3 | h3
        · simp at h3
        · simp [sqlite_db_has_tables] at h3
      · exact h2

/-- C9: verify_sqlite_storage terminates the process exactly on the
states the claim enumerates, and every terminal branch either proceeds
silently or terminates: missing base directory is fatal when
fail_on_warnings is set, otherwise fatal on a failed directory creation
attempt when create_directories is set, otherwise fatal outright;
existing directory with an existing file is fatal exactly when the file
is not writable; existing directory without the file is fatal exactly
when the directory is not writable. -/
theorem C9_verify_sqlite_storage_cases :
    ∀ fow cd bde fe fw dw mk : Bool,
      (verify_sqlite_storage ⟨fow, cd⟩ ⟨bde, fe, fw, dw, mk⟩ = VerifyOutcome.proceed ∨
        verify_sqlite_storage ⟨fow, cd⟩ ⟨bde, fe, fw, dw, mk⟩ = VerifyOutcome.fatal) ∧
      (verify_sqlite_storage ⟨fow, cd⟩ ⟨bde, fe, fw, dw, mk⟩ = VerifyOutcome.fatal ↔
        ((bde = false ∧ fow = true) ∨
          (bde = false ∧ fow = false ∧ cd = true ∧ mk = false) ∨
          (bde = false ∧ fow = false ∧ cd = false) ∨
          (bde = true ∧ fe = true ∧ fw = false) ∨
          (bde = true ∧ fe = false ∧ dw = false))) := by
  intro fow cd bde fe fw dw mk
  cases fow <;> cases cd <;> cases bde <;> cases fe <;> cases fw <;> cases dw <;> cases mk <;>
    decide

/-- C6 counterexample: a raw section that has read and new fields but no
write field is accepted by the query-catalog loader without any error,
refuting the claim that loading fails when a required field is absent. -/
theorem C6_counterexample :
    (QuerySettings_load true
        [⟨"users", [("read", "SELECT id,name FROM users"),
                    ("new", "CREATE TABLE users (id INT, name TEXT)")]⟩]).isOk = true ∧
      lookupField [("read", "SELECT id,name FROM users"),
                   ("new", "CREATE TABLE users (id INT, name TEXT)")] "write" = none := by
  decide

/-- C6 (amended): loading the query catalog performs no per-field
validation at all: whenever at least one config file was read, every raw
section is stored verbatim, so absent or empty read, new or write fields
cause no failure at load time; the only load-time failure is when no
config file could be read. -/
theorem C6_load_no_validation :
    ∀ sections : List RawSection,
      QuerySettings_load true sections =
        Except.ok (sections.map (fun s => (s.name, s.fields))) ∧
      (QuerySettings_load false sections).isOk = false := by
  intro sections
  constructor
  · rfl
  · rfl

/-- C7 counterexample: on a concrete database file holding one table, the
probe trace records the opened connection and contains no release of it,
refuting the claim that the connection the probe opened is released
before the call returns. -/
theorem C7_counterexample :
    Event.probeConnect ∈ (sqlite_db_has_tables ⟨true, ["users"]⟩).2.2 ∧
      Event.probeClose ∉ (sqlite_db_has_tables ⟨true, ["users"]⟩).2.2 := by
  decide

/-- C7 (amended): every call of the has-tables probe opens an ephemeral
connection to the destination store (creating the file when missing, its
only filesystem effect), counts catalog-level table objects and returns
true exactly when that count is positive; however the connection it
opened is not released before the call returns on any path (release is
left to runtime finalization). -/
theorem C7_probe_behavior (fs : FsState) :
    ((sqlite_db_has_tables fs).1 = true ↔ 0 < (connectFs fs).tables.length) ∧
      (sqlite_db_has_tables fs).2.1 = connectFs fs ∧
      Event.probeConnect ∈ (sqlite_db_has_tables fs).2.2 ∧
      Event.probeClose ∉ (sqlite_db_has_tables fs).2.2 := by
  refine ⟨?_, rfl, ?_, ?_⟩
  · simp [sqlite_db_has_tables, Nat.pos_iff_ne_zero]
  · simp [sqlite_db_has_tables]
  · simp [sqlite_db_has_tables]

/-- C7 witness: the amended probe facts hold at a concrete store with two
tables. -/
theorem C7_probe_behavior_witness :
    ((sqlite_db_has_tables ⟨true, ["users", "aliases"]⟩).1 = true ↔
        0 < (connectFs ⟨true, ["users", "aliases"]⟩).tables.length) ∧
      (sqlite_db_has_tables ⟨true, ["users", "aliases"]⟩).2.1 =
        connectFs ⟨true, ["users", "aliases"]⟩ ∧
      Event.probeConnect ∈ (sqlite_db_has_tables ⟨true, ["users", "aliases"]⟩).2.2 ∧
      Event.probeClose ∉ (sqlite_db_has_tables ⟨true, ["users", "aliases"]⟩).2.2 :=
  C7_probe_behavior ⟨true, ["users", "aliases"]⟩

/-- C1 counterexample: a run against an existing destination file with no
tables (pre-run committed table set empty) imports the schema and then
fails on the first row write: the process exits with zero commit
invocations, as the claim says, yet the destination does not retain its
pre-run committed state, because the schema import was committed durably
by the executescript call (the users table is present afterwards). -/
theorem C1_counterexample :
    (mainRun flagsQuiet stOk false envWriteFail [entryUsers] ⟨true, []⟩).exitCode = some 1 ∧
      Event.commitEv ∉
        (mainRun flagsQuiet stOk false envWriteFail [entryUsers] ⟨true, []⟩).trace ∧
      (mainRun flagsQuiet stOk false envWriteFail [entryUsers] ⟨true, []⟩).fs.tables =
        ["users"] ∧
      (FsState.mk true []).tables = [] := by
  decide

/-- C1 (amended): in every run, when the run completes the destination
commit is invoked exactly once, as the very last recorded action, after
every catalog table has had its read executed and every one of its source
rows written; when the run exits early for any reason, zero commit
invocations have been issued. However the destination need not retain
its pre-run committed state on failure: a schema import performed
earlier in the run persists, since executescript commits durably. -/
theorem C1_commit_invocations (flags : Flags) (st : StorageState) (ac : Bool) (env : Env)
    (entries : List Entry) (fs0 : FsState) :
    ((mainRun flags st ac env entries fs0).exitCode = none →
      ∃ t, (mainRun flags st ac env entries fs0).trace = t ++ [Event.commitEv] ∧
        Event.commitEv ∉ t ∧
        ∀ e ∈ entries, Event.readExec e.name e.read ∈ t ∧
          ∀ r ∈ env.rows e.name, Event.writeExec e.name e.write r ∈ t) ∧
    ((mainRun flags st ac env entries fs0).exitCode ≠ none →
      Event.commitEv ∉ (mainRun flags st ac env entries fs0).trace) := by
  unfold mainRun
  split
  · constructor
    · intro h
      simp at h
    · intro _ h
      simp at h
  · split
    · split
      · exact runTail_commit _ _ _ _ _ _ _
          (by simp [sqlite_db_has_tables, import_sqlite_db_schema])
      · constructor
        · intro h
          simp at h
        · intro _ h
          simp [sqlite_db_has_tables, import_sqlite_db_schema] at h
    · exact runTail_commit _ _ _ _ _ _ _ (by simp [sqlite_db_has_tables])

/-- C1 witness: on a successful concrete run the trace ends in the single
commit, preceded by the read and both row writes of the users table. -/
theorem C1_commit_invocations_witness :
    ∃ t, (mainRun flagsQuiet stOk false envAllOk [entryUsers] ⟨true, ["users"]⟩).trace =
        t ++ [Event.commitEv] ∧
      Event.commitEv ∉ t ∧
      ∀ e ∈ [entryUsers], Event.readExec e.name e.read ∈ t ∧
        ∀ r ∈ envAllOk.rows e.name, Event.writeExec e.name e.write r ∈ t :=
  (C1_commit_invocations flagsQuiet stOk false envAllOk [entryUsers] ⟨true, ["users"]⟩).1 rfl

/-- C2: given a storage preflight that does not abort, a run whose
destination holds zero tables after connecting performs one single
schema-import step, strictly before any row write; a run whose
destination file already existed with at least one table never performs
the schema-import step. -/
theorem C2_schema_import_gating (flags : Flags) (st : StorageState) (ac : Bool) (env : Env)
    (entries : List Entry) (fs0 : FsState)
    (hv : fs0.fileExists = false → verify_sqlite_storage flags st ≠ VerifyOutcome.fatal) :
    ((connectFs fs0).tables = [] →
      ∃ t1 stmts t2,
        (mainRun flags st ac env entries fs0).trace = t1 ++ Event.importSchema stmts :: t2 ∧
          (∀ ev ∈ t1, isImportEv ev = false ∧ isWriteEv ev = false) ∧
          (∀ ev ∈ t2, isImportEv ev = false)) ∧
    (fs0.fileExists = true → fs0.tables ≠ [] →
      ∀ ev ∈ (mainRun flags st ac env entries fs0).trace, isImportEv ev = false) := by
  constructor
  · intro hzero
    have hcond1 : ¬ (fs0.fileExists = false ∧
        verify_sqlite_storage flags st = VerifyOutcome.fatal) := by
      intro hc
      exact hv hc.1 hc.2
    have hp1 : (sqlite_db_has_tables (connectFs fs0)).1 = false := by
      simp [sqlite_db_has_tables, connectFs_idem, hzero]
    have ht1 : ∀ ev ∈ Event.connectSQLite :: (sqlite_db_has_tables (connectFs fs0)).2.2,
        isImportEv ev = false ∧ isWriteEv ev = false := by
      intro ev hev
      rcases List.mem_cons.mp hev with rfl | hev
      · exact ⟨rfl, rfl⟩
      · simp only [sqlite_db_has_tables] at hev
        rcases List.mem_cons.mp hev with rfl | hev
        · exact ⟨rfl, rfl⟩
        · rcases List.mem_singleton.mp hev with rfl
          exact ⟨rfl, rfl⟩
    unfold mainRun
    rw [if_neg hcond1, if_pos (Or.inr hp1)]
    by_cases hso : (import_sqlite_db_schema env entries
        (sqlite_db_has_tables (connectFs fs0)).2.1).2.2 = true
    · rw [if_pos hso]
      obtain ⟨mid, rest, htr, hmid, hrest⟩ := runTail_trace_decomp (!fs0.fileExists)
        (Event.connectSQLite :: (sqlite_db_has_tables (connectFs fs0)).2.2 ++
          (import_sqlite_db_schema env entries
            (sqlite_db_has_tables (connectFs fs0)).2.1).2.1)
        (import_sqlite_db_schema env entries (sqlite_db_has_tables (connectFs fs0)).2.1).1
        flags ac env entries
      refine ⟨Event.connectSQLite :: (sqlite_db_has_tables (connectFs fs0)).2.2,
        schemaStmts entries,
        mid ++ (tableLoop env (sqlite_db_has_tables
          (import_sqlite_db_schema env entries
            (sqlite_db_has_tables (connectFs fs0)).2.1).1).1 entries).1 ++ rest,
        ?_, ht1, ?_⟩
      · rw [htr]
        simp [import_sqlite_db_schema, List.append_assoc]
      · intro ev hev
        rcases List.mem_append.mp hev with hev | hev
        · rcases List.mem_append.mp hev with hev | hev
          · rcases hmid _ hev with rfl | rfl | rfl | ⟨n, rfl⟩ <;> rfl
          · exact tableEv_not_import ev (tableLoop_table_ev env _ entries ev hev)
        · rw [hrest _ hev]
          rfl
    · rw [if_neg hso]
      refine ⟨Event.connectSQLite :: (sqlite_db_has_tables (connectFs fs0)).2.2,
        schemaStmts entries, [], ?_, ht1, ?_⟩
      · show Event.connectSQLite :: (sqlite_db_has_tables (connectFs fs0)).2.2 ++
          (import_sqlite_db_schema env entries
            (sqlite_db_has_tables (connectFs fs0)).2.1).2.1 = _
        simp [import_sqlite_db_schema]
      · intro ev hev
        simp at hev
  · intro hex hne
    have hcf : connectFs fs0 = fs0 := connectFs_of_fileExists fs0 hex
    obtain ⟨x, xs, hts⟩ : ∃ x xs, fs0.tables = x :: xs := by
      cases h : fs0.tables with
      | nil => exact absurd h hne
      | cons x xs => exact ⟨x, xs, rfl⟩
    have hp1 : (sqlite_db_has_tables (connectFs fs0)).1 = true := by
      simp [sqlite_db_has_tables, connectFs_idem, hcf, hts]
    unfold mainRun
    rw [if_neg (by simp [hex]), if_neg (by simp [hex, hp1])]
    intro ev hev
    cases ev with
    | importSchema stmts =>
      have h2 := runTail_import_free _ _ _ _ _ _ _ stmts hev
      rcases List.mem_cons.mp h2 with h3 | h3
      · simp at h3
      · simp [sqlite_db_has_tables] at h3
    | connectSQLite => rfl
    | probeConnect => rfl
    | probeCount n => rfl
    | probeClose => rfl
    | warnAutocommit => rfl
    | infoAutocommitOff => rfl
    | readExec t s => rfl
    | dropExec t => rfl
    | newExec t s => rfl
    | indexExec t s => rfl
    | writeExec t s r => rfl
    | commitEv => rfl

/-- C2 witness: the gating facts hold concretely for a table-less
destination and for a destination already holding a table. -/
theorem C2_schema_import_gating_witness :
    (∃ t1 stmts t2,
      (mainRun flagsQuiet stOk false envAllOk [entryUsers] ⟨true, []⟩).trace =
        t1 ++ Event.importSchema stmts :: t2 ∧
        (∀ ev ∈ t1, isImportEv ev = false ∧ isWriteEv ev = false) ∧
        (∀ ev ∈ t2, isImportEv ev = false)) ∧
    (∀ ev ∈ (mainRun flagsQuiet stOk false envAllOk [entryUsers] ⟨true, ["users"]⟩).trace,
      isImportEv ev = false) :=
  ⟨(C2_schema_import_gating flagsQuiet stOk false envAllOk [entryUsers] ⟨true, []⟩
      (fun h => absurd h (by decide))).1 rfl,
    (C2_schema_import_gating flagsQuiet stOk false envAllOk [entryUsers] ⟨true, ["users"]⟩
      (fun h => absurd h (by decide))).2 rfl (by decide)⟩

/-- C3 counterexample: a run with an empty catalog against a fresh
destination imports the (empty) schema, yet the recomputed has-tables
probe returns false, so the drop-tables flag is false for the loop,
refuting the claim that the recomputation after every import returns
true. -/
theorem C3_counterexample :
    Event.importSchema [] ∈ (mainRun flagsQuiet stOk false envAllOk [] ⟨false, []⟩).trace ∧
      (mainRun flagsQuiet stOk false envAllOk [] ⟨false, []⟩).dropTables = some false := by
  decide

/-- C3 (amended): whenever the run imports the schema (destination new or
table-less, preflight passing), the import succeeds, and the catalog is
nonempty, the recomputed has-tables probe returns true, so the
drop-tables flag is set for the whole per-table loop and every row write
of the run is preceded by the drop and recreate of its table; with an
empty catalog the imported schema creates no tables and the recomputed
probe returns false. -/
theorem C3_drop_flag_after_import (flags : Flags) (st : StorageState) (ac : Bool) (env : Env)
    (entries : List Entry) (fs0 : FsState)
    (hv : fs0.fileExists = false → verify_sqlite_storage flags st ≠ VerifyOutcome.fatal)
    (hzero : (connectFs fs0).tables = [])
    (hso : env.scriptOk = true)
    (hne : entries ≠ []) :
    (∃ stmts, Event.importSchema stmts ∈ (mainRun flags st ac env entries fs0).trace) ∧
      (mainRun flags st ac env entries fs0).dropTables = some true ∧
      ∀ t s r, Event.writeExec t s r ∈ (mainRun flags st ac env entries fs0).trace →
        Event.dropExec t ∈ (mainRun flags st ac env entries fs0).trace ∧
          ∃ s2, Event.newExec t s2 ∈ (mainRun flags st ac env entries fs0).trace := by
  have hcond1 : ¬ (fs0.fileExists = false ∧
      verify_sqlite_storage flags st = VerifyOutcome.fatal) := by
    intro hc
    exact hv hc.1 hc.2
  have hp1 : (sqlite_db_has_tables (connectFs fs0)).1 = false := by
    simp [sqlite_db_has_tables, connectFs_idem, hzero]
  have hso2 : (import_sqlite_db_schema env entries
      (sqlite_db_has_tables (connectFs fs0)).2.1).2.2 = true := hso
  have hcf : connectFs fs0 = FsState.mk true [] := by
    have h1 := connectFs_fileExists fs0
    cases hc : connectFs fs0 with
    | mk fe ts =>
      rw [hc] at h1 hzero
      simp at h1 hzero
      rw [h1, hzero]
  have hfs2 : (sqlite_db_has_tables (connectFs fs0)).2.1 = FsState.mk true [] := by
    show connectFs (connectFs fs0) = FsState.mk true []
    rw [connectFs_idem, hcf]
  have hfsI : (import_sqlite_db_schema env entries
      (sqlite_db_has_tables (connectFs fs0)).2.1).1 =
      FsState.mk true (entries.map Entry.name) := by
    simp [import_sqlite_db_schema, hso, hfs2]
  have hd : (sqlite_db_has_tables (import_sqlite_db_schema env entries
      (sqlite_db_has_tables (connectFs fs0)).2.1).1).1 = true := by
    rw [hfsI]
    obtain ⟨e0, es0, rfl⟩ : ∃ e0 es0, entries = e0 :: es0 := by
      cases h : entries with
      | nil => exact absurd h hne
      | cons a l => exact ⟨a, l, rfl⟩
    simp [sqlite_db_has_tables, connectFs]
  unfold mainRun
  rw [if_neg hcond1, if_pos (Or.inr hp1), if_pos hso2]
  refine ⟨⟨schemaStmts entries, ?_⟩, ?_, ?_⟩
  · obtain ⟨mid, rest, htr, hmid, hrest⟩ := runTail_trace_decomp (!fs0.fileExists)
      (Event.connectSQLite :: (sqlite_db_has_tables (connectFs fs0)).2.2 ++
        (import_sqlite_db_schema env entries
          (sqlite_db_has_tables (connectFs fs0)).2.1).2.1)
      (import_sqlite_db_schema env entries (sqlite_db_has_tables (connectFs fs0)).2.1).1
      flags ac env entries
    rw [htr]
    refine List.mem_append.mpr (Or.inl (List.mem_append.mpr (Or.inl
      (List.mem_append.mpr (Or.inl ?_)))))
    refine List.mem_cons_of_mem _ (List.mem_append.mpr (Or.inr ?_))
    simp [import_sqlite_db_schema]
  · show some (sqlite_db_has_tables (import_sqlite_db_schema env entries
      (sqlite_db_has_tables (connectFs fs0)).2.1).1).1 = some true
    rw [hd]
  · intro t s r hw
    rcases runTail_write_origin _ _ _ _ _ _ _ hd t s r hw with h | h
    · rcases List.mem_cons.mp h with h3 | h3
      · simp at h3
      · rcases List.mem_append.mp h3 with h4 | h4
        · simp [sqlite_db_has_tables] at h4
        · simp [import_sqlite_db_schema] at h4
    · exact h

/-- C3 witness: the amended facts hold on a concrete fresh-destination
run with a one-table catalog. -/
theorem C3_drop_flag_after_import_witness :
    (∃ stmts, Event.importSchema stmts ∈
      (mainRun flagsQuiet stOk false envAllOk [entryUsers] ⟨false, []⟩).trace) ∧
      (mainRun flagsQuiet stOk false envAllOk [entryUsers] ⟨false, []⟩).dropTables =
        some true ∧
      ∀ t s r, Event.writeExec t s r ∈
          (mainRun flagsQuiet stOk false envAllOk [entryUsers] ⟨false, []⟩).trace →
        Event.dropExec t ∈
            (mainRun flagsQuiet stOk false envAllOk [entryUsers] ⟨false, []⟩).trace ∧
          ∃ s2, Event.newExec t s2 ∈
            (mainRun flagsQuiet stOk false envAllOk [entryUsers] ⟨false, []⟩).trace :=
  C3_drop_flag_after_import flagsQuiet stOk false envAllOk [entryUsers] ⟨false, []⟩
    (fun _ => by decide) rfl rfl (by decide)

/-- C4: mirroring one table proceeds in order: the source read first,
then, exactly when the drop flag is set, DROP TABLE IF EXISTS, the
create statement and (when present) the index statement, then one write
per source row in cursor order, each carrying the row values in
positional order; and when the drop flag is unset no drop, create or
index statement is ever executed. -/
theorem C4_mirror_table_order (env : Env) (e : Entry) (d : Bool)
    (hr : env.readOk e.name = true) (hd : env.dropOk e.name = true)
    (hn : env.newOk e.name = true) (hi : env.indexOk e.name = true)
    (hw : ∀ i, env.writeOk e.name i = true) :
    mirrorTable env d e =
      (Event.readExec e.name e.read ::
        ((if d then
            Event.dropExec e.name :: Event.newExec e.name e.new ::
              (match e.index with
                | some ix => [Event.indexExec e.name ix]
                | none => [])
          else []) ++
          (env.rows e.name).map (Event.writeExec e.name e.write)), none) ∧
    (∀ (env2 : Env) (e2 : Entry) (t s : String),
      Event.dropExec t ∉ (mirrorTable env2 false e2).1 ∧
        Event.newExec t s ∉ (mirrorTable env2 false e2).1 ∧
        Event.indexExec t s ∉ (mirrorTable env2 false e2).1) := by
  constructor
  · cases d with
    | true =>
      rw [mirrorTable_eq_ddlOk env e hr (by rw [ddlPhase_allOk env e hd hn hi]),
        ddlPhase_allOk env e hd hn hi, writeRows_allOk env e.name e.write hw]
      simp
    | false =>
      rw [mirrorTable_eq_noDrop env e hr, writeRows_allOk env e.name e.write hw]
      simp
  · intro env2 e2 t s
    refine ⟨?_, ?_, ?_⟩ <;> intro h <;>
      rcases mirrorTable_no_ddl env2 e2 _ h with h2 | ⟨r, h2⟩ <;> simp at h2

/-- C4 witness: the exact statement order holds on a concrete entry with
an index statement, with the drop flag set. -/
theorem C4_mirror_table_order_witness :
    (mirrorTable envAllOk true entryAliases =
      (Event.readExec entryAliases.name entryAliases.read ::
        ((if true then
            Event.dropExec entryAliases.name ::
              Event.newExec entryAliases.name entryAliases.new ::
              (match entryAliases.index with
                | some ix => [Event.indexExec entryAliases.name ix]
                | none => [])
          else []) ++
          (envAllOk.rows entryAliases.name).map
            (Event.writeExec entryAliases.name entryAliases.write)), none)) ∧
    (∀ (env2 : Env) (e2 : Entry) (t s : String),
      Event.dropExec t ∉ (mirrorTable env2 false e2).1 ∧
        Event.newExec t s ∉ (mirrorTable env2 false e2).1 ∧
        Event.indexExec t s ∉ (mirrorTable env2 false e2).1) :=
  C4_mirror_table_order envAllOk entryAliases true rfl rfl rfl rfl (fun _ => rfl)

/-- C5: the code diverges from the claim at the autocommit check. With
autocommit enabled and fail_on_warnings unset, no warning at all is
logged (the claim says the warning is always logged); with autocommit
enabled and fail_on_warnings set, the code logs the warning and the run
continues to completion (the claim says this escalates to a fatal
error). This theorem evaluates the embedded code at both failing
inputs. -/
theorem C5_autocommit_divergence :
    autocommit_check true false = [] ∧
      autocommit_check true true = [Event.warnAutocommit] ∧
      (mainRun ⟨true, false⟩ stOk true envAllOk [entryUsers]
          ⟨true, ["users"]⟩).exitCode = none ∧
      Event.warnAutocommit ∈
        (mainRun ⟨true, false⟩ stOk true envAllOk [entryUsers] ⟨true, ["users"]⟩).trace := by
  decide

/-- C8: a catalog entry with no index field causes no index statement
execution anywhere in the run for that table, neither inside the
aggregate schema-import script nor during drop and recreate. -/
theorem C8_no_index_for_indexless_entry (flags : Flags) (st : StorageState) (ac : Bool)
    (env : Env) (entries : List Entry) (fs0 : FsState) (e : Entry)
    (hmem : e ∈ entries) (hnd : (entries.map Entry.name).Nodup) (hidx : e.index = none) :
    (∀ s, Event.indexExec e.name s ∉ (mainRun flags st ac env entries fs0).trace) ∧
      (∀ stmts s, Event.importSchema stmts ∈ (mainRun flags st ac env entries fs0).trace →
        SchemaStmt.idx e.name s ∉ stmts) := by
  constructor
  · intro s h
    obtain ⟨e2, he2, hname, hix⟩ := mainRun_index_origin flags st ac env entries fs0 e.name s h
    have heq : e2 = e := entry_name_inj entries hnd e2 he2 e hmem hname
    rw [heq, hidx] at hix
    cases hix
  · intro stmts s himp hin
    have hst := mainRun_import_stmts flags st ac env entries fs0 stmts himp
    rw [hst] at hin
    obtain ⟨e2, he2, hname, hix⟩ := schemaStmts_idx_origin entries e.name s hin
    have heq : e2 = e := entry_name_inj entries hnd e2 he2 e hmem hname
    rw [heq, hidx] at hix
    cases hix

/-- C8 witness: the absence of index statements for the index-less users
entry holds on a concrete two-table run. -/
theorem C8_no_index_for_indexless_entry_witness :
    (∀ s, Event.indexExec entryUsers.name s ∉
      (mainRun flagsQuiet stOk false envAllOk [entryUsers, entryAliases] ⟨true, []⟩).trace) ∧
      (∀ stmts s, Event.importSchema stmts ∈
          (mainRun flagsQuiet stOk false envAllOk [entryUsers, entryAliases]
            ⟨true, []⟩).trace →
        SchemaStmt.idx entryUsers.name s ∉ stmts) :=
  C8_no_index_for_indexless_entry flagsQuiet stOk false envAllOk [entryUsers, entryAliases]
    ⟨true, []⟩ entryUsers (by decide) (by decide) rfl

/-- C10: probing a path with no database file raises nothing: it creates
an empty database file as a side effect of the connect call and returns
false; and in every run the SQLITE_DB_IS_NEW flag equals the
non-existence of the file in the initial state, computed before the
first connection or probe touches the path, which is what keeps the flag
meaningful. -/
theorem C10_probe_on_missing_file (fs0 : FsState) (h : fs0.fileExists = false)
    (flags : Flags) (st : StorageState) (ac : Bool) (env : Env) (entries : List Entry) :
    sqlite_db_has_tables fs0 =
      (false, ⟨true, []⟩, [Event.probeConnect, Event.probeCount 0]) ∧
      (∀ fs1 : FsState, (mainRun flags st ac env entries fs1).isNew = !fs1.fileExists) := by
  constructor
  · simp [sqlite_db_has_tables, connectFs, h]
  · intro fs1
    unfold mainRun
    split
    · rfl
    · split
      · split
        · rfl
        · rfl
      · rfl

/-- C10 witness: the probe facts hold at a concrete missing-file state. -/
theorem C10_probe_on_missing_file_witness :
    sqlite_db_has_tables ⟨false, []⟩ =
      (false, ⟨true, []⟩, [Event.probeConnect, Event.probeCount 0]) ∧
      (∀ fs1 : FsState,
        (mainRun flagsQuiet stOk false envAllOk [entryUsers] fs1).isNew =
          !fs1.fileExists) :=
  C10_probe_on_missing_file ⟨false, []⟩ rfl flagsQuiet stOk false envAllOk [entryUsers]

end M2S
